import Mathlib

/-!
Verification of the session-code routing core of the voice-agent repository
(`src/agent/RoomIO.py`): the `SessionCodeStore` registry, the DTMF digit
state machine (`_handle_dtmf`), the code submission path (`_route_code`),
the dispatch guard (`_dispatch_if_needed_after_move`,
`_ensure_agent_dispatched_to_room`, `_room_has_agent_participant`) and the
fallback scheduler (`_schedule_fallback`).

Modelling conventions: `time.time()` float timestamps are modelled as
integers (only order comparisons matter); SQLite tables are association
lists keyed by their primary key; the external LiveKit capabilities
(move, dispatch listing/creation, participant probe) are abstracted into a
record of response functions, since the source treats them as opaque
fallible remote calls; `secrets.SystemRandom().randrange(10)` is modelled
as an ambient stream `rand : Nat -> Fin 10` of draws.
-/

/-- Code length `SESSION_CODE_LEN` (env default 6). -/
def SESSION_CODE_LEN : Nat := 6

/-- Code time-to-live `SESSION_CODE_TTL_SEC` in seconds (env default 900). -/
def SESSION_CODE_TTL_SEC : Int := 900

/-- Lobby room name `SIP_LOBBY_ROOM` (env default "sip-lobby"). -/
def SIP_LOBBY_ROOM : String := "sip-lobby"

/-- Characters removed by Python `str.strip()` (ASCII whitespace). -/
def isSpaceChar (c : Char) : Bool :=
  c.toNat = 32 || c.toNat = 9 || c.toNat = 10 || c.toNat = 13 || c.toNat = 11 || c.toNat = 12

/-- Characters accepted by Python `str.isdigit()`, restricted to the ASCII
digits that DTMF events and `generate_code` actually produce (the further
Unicode digit characters Python accepts are, like these, not whitespace,
which is all the proofs below use). -/
def isDigitChar (c : Char) : Bool := 48 ≤ c.toNat && c.toNat ≤ 57

/-- Python `s.strip()`: drop leading and trailing whitespace. -/
def pyStrip (s : String) : String :=
  String.mk (((s.data.dropWhile isSpaceChar).reverse.dropWhile isSpaceChar).reverse)

/-- Python `s.isdigit()`: non-empty and every character a digit. -/
def pyIsDigit (s : String) : Bool := !s.data.isEmpty && s.data.all isDigitChar

/-- Python slice `s[:n]`. -/
def pyTake (n : Nat) (s : String) : String := String.mk (s.data.take n)

/-- Row of the `session_codes` table. -/
structure CodeRow where
  room : String
  expires_at : Int
  created_at : Int
deriving Repr, DecidableEq

/-- Row of the `session_rooms` table. -/
structure RoomRow where
  expires_at : Int
  created_at : Int
deriving Repr, DecidableEq

/-- The SQLite store backing `SessionCodeStore`: both tables as association
lists keyed by their primary key (`code`, resp. `room`). -/
structure Store where
  session_codes : List (String × CodeRow)
  session_rooms : List (String × RoomRow)
deriving Repr, DecidableEq

def emptyStore : Store := ⟨[], []⟩

/-- SELECT by primary key on an association list (first match). -/
def lookupA {α : Type} (k : String) : List (String × α) → Option α
  | [] => none
  | q :: rest => if q.1 = k then some q.2 else lookupA k rest

/-- DELETE FROM session_codes WHERE expires_at <= now
(`SessionCodeStore._cleanup`, first statement). -/
def cleanupCodes (now : Int) : List (String × CodeRow) → List (String × CodeRow)
  | [] => []
  | q :: rest =>
    if q.2.expires_at ≤ now then cleanupCodes now rest else q :: cleanupCodes now rest

/-- DELETE FROM session_rooms WHERE expires_at <= now
(`SessionCodeStore._cleanup`, second statement). -/
def cleanupRooms (now : Int) : List (String × RoomRow) → List (String × RoomRow)
  | [] => []
  | q :: rest =>
    if q.2.expires_at ≤ now then cleanupRooms now rest else q :: cleanupRooms now rest

/-- DELETE FROM session_codes WHERE code = k (the unconditional one-time-use
delete in `SessionCodeStore.resolve`). -/
def deleteCode (k : String) : List (String × CodeRow) → List (String × CodeRow)
  | [] => []
  | q :: rest => if q.1 = k then deleteCode k rest else q :: deleteCode k rest

/-- The expiry sweep `SessionCodeStore._cleanup` over both tables. -/
def cleanup (now : Int) (st : Store) : Store :=
  ⟨cleanupCodes now st.session_codes, cleanupRooms now st.session_rooms⟩

/-- INSERT INTO session_rooms ... ON CONFLICT(room) DO UPDATE: refresh the
room's expiry window (in `SessionCodeStore.create`). -/
def upsertRoom (room : String) (expires_at created_at : Int)
    (l : List (String × RoomRow)) : List (String × RoomRow) :=
  if (lookupA room l).isSome then
    l.map (fun q => if q.1 = room then (room, ⟨expires_at, created_at⟩) else q)
  else (room, ⟨expires_at, created_at⟩) :: l

/-- SessionCodeStore.generate_code: the k-th generated `SESSION_CODE_LEN`-digit
code, reading the ambient stream `rand` of `randrange(10)` draws. -/
def generate_code (rand : Nat → Fin 10) (k : Nat) : String :=
  String.mk ((List.range SESSION_CODE_LEN).map
    (fun i => Char.ofNat (48 + (rand (k * SESSION_CODE_LEN + i)).val)))

/-- The retry loop of `SessionCodeStore.create`: up to `fuel` insertion
attempts, each failing exactly when the candidate code is already a live
primary key; a failed INSERT leaves the table unchanged. -/
def createLoop (rand : Nat → Fin 10) (k : Nat) (fuel : Nat) (room : String)
    (expires_at now : Int) (cur : Store) : Except String (String × Store) :=
  match fuel with
  | 0 => .error "Unable to allocate unique session code"
  | fuel' + 1 =>
    let code := generate_code rand k
    if (lookupA code cur.session_codes).isSome then
      createLoop rand (k + 1) fuel' room expires_at now cur
    else
      .ok (code, { cur with session_codes := (code, ⟨room, expires_at, now⟩) :: cur.session_codes })

/-- SessionCodeStore.create: expiry sweep, SessionRoom upsert, then up to 50
random-code insertion attempts; raises `RuntimeError` when all 50 collide, in
which case the enclosing transaction rolls back (the error carries no store). -/
def create (rand : Nat → Fin 10) (room : String) (now : Int) (st : Store) :
    Except String (String × Store) :=
  let expires_at := now + SESSION_CODE_TTL_SEC
  let st1 := cleanup now st
  let st2 : Store := { st1 with session_rooms := upsertRoom room expires_at now st1.session_rooms }
  createLoop rand 0 50 room expires_at now st2

/-- SessionCodeStore.resolve: expiry sweep, point lookup, unconditional delete
of the code's row, and a final not-expired test on the fetched row. -/
def resolve (code : String) (now : Int) (st : Store) : Option String × Store :=
  let cleaned := cleanup now st
  let row := lookupA code cleaned.session_codes
  let st2 : Store := { cleaned with session_codes := deleteCode code cleaned.session_codes }
  match row with
  | none => (none, st2)
  | some r => if r.expires_at ≤ now then (none, st2) else (some r.room, st2)

/-- SELECT room FROM session_rooms WHERE expires_at > now ORDER BY created_at
DESC LIMIT 1 — a maximal-`created_at` live row (SQL leaves ties unspecified;
this scan keeps the earlier row on a tie). -/
def bestRoom (now : Int) : List (String × RoomRow) → Option (String × RoomRow)
  | [] => none
  | q :: rest =>
    match bestRoom now rest with
    | none => if now < q.2.expires_at then some q else none
    | some q' =>
      if now < q.2.expires_at then
        if q'.2.created_at > q.2.created_at then some q' else some q
      else some q'

/-- SessionCodeStore.latest_room: expiry sweep (committed by the connection
context manager), then the most recently created live SessionRoom. -/
def latest_room (now : Int) (st : Store) : Option String × Store :=
  let cleaned := cleanup now st
  ((bestRoom now cleaned.session_rooms).map (fun q => q.1), cleaned)

/- Association-list and sweep lemmas shared by the registry theorems. -/

theorem lookupA_cleanupCodes_none (k : String) (now : Int) (l : List (String × CodeRow))
    (h : lookupA k l = none) : lookupA k (cleanupCodes now l) = none := by
  induction l with
  | nil => simpa using h
  | cons q rest ih =>
    obtain ⟨k', v'⟩ := q
    by_cases hk : k' = k
    · simp [lookupA, hk] at h
    · have h' : lookupA k rest = none := by simpa [lookupA, hk] using h
      by_cases he : v'.expires_at ≤ now
      · simpa [cleanupCodes, he] using ih h'
      · simpa [cleanupCodes, he, lookupA, hk] using ih h'

theorem lookupA_cleanupCodes_some (k : String) (now : Int) (l : List (String × CodeRow))
    (v : CodeRow) (h : lookupA k l = some v) (hv : now < v.expires_at) :
    lookupA k (cleanupCodes now l) = some v := by
  induction l with
  | nil => simp [lookupA] at h
  | cons q rest ih =>
    obtain ⟨k', v'⟩ := q
    by_cases hk : k' = k
    · subst hk
      have hv2 : v' = v := by simpa [lookupA] using h
      subst hv2
      have he : ¬ v'.expires_at ≤ now := not_le.mpr hv
      simp [cleanupCodes, he, lookupA]
    · have h' : lookupA k rest = some v := by simpa [lookupA, hk] using h
      by_cases he : v'.expires_at ≤ now
      · simpa [cleanupCodes, he] using ih h'
      · simpa [cleanupCodes, he, lookupA, hk] using ih h'

theorem mem_of_lookupA (k : String) {α : Type} (l : List (String × α)) (v : α)
    (h : lookupA k l = some v) : (k, v) ∈ l := by
  induction l with
  | nil => simp [lookupA] at h
  | cons q rest ih =>
    obtain ⟨k', v'⟩ := q
    by_cases hk : k' = k
    · subst hk
      have hv2 : v' = v := by simpa [lookupA] using h
      subst hv2
      exact List.mem_cons_self _ _
    · have h' : lookupA k rest = some v := by simpa [lookupA, hk] using h
      exact List.mem_cons_of_mem _ (ih h')

theorem lookupA_of_mem_nodup (k : String) {α : Type} (l : List (String × α)) (v : α)
    (hn : (l.map Prod.fst).Nodup) (h : (k, v) ∈ l) : lookupA k l = some v := by
  induction l with
  | nil => simp at h
  | cons q rest ih =>
    obtain ⟨k', v'⟩ := q
    simp only [List.map_cons, List.nodup_cons] at hn
    rcases List.mem_cons.mp h with h1 | h1
    · obtain ⟨hk, hv⟩ := Prod.mk.injEq .. ▸ h1.symm
      subst hk; subst hv
      simp [lookupA]
    · have hk : k' ≠ k := by
        intro hq
        subst hq
        exact hn.1 (List.mem_map_of_mem Prod.fst h1)
      simp [lookupA, hk, ih hn.2 h1]

theorem mem_cleanupCodes (now : Int) (l : List (String × CodeRow)) (q : String × CodeRow) :
    q ∈ cleanupCodes now l ↔ q ∈ l ∧ now < q.2.expires_at := by
  induction l with
  | nil => simp [cleanupCodes]
  | cons p rest ih =>
    by_cases he : p.2.expires_at ≤ now
    · simp only [cleanupCodes, if_pos he, ih, List.mem_cons]
      constructor
      · rintro ⟨h1, h2⟩; exact ⟨Or.inr h1, h2⟩
      · rintro ⟨h1 | h1, h2⟩
        · subst h1; omega
        · exact ⟨h1, h2⟩
    · simp only [cleanupCodes, if_neg he, List.mem_cons, ih]
      constructor
      · rintro (h1 | ⟨h1, h2⟩)
        · subst h1; exact ⟨Or.inl rfl, by omega⟩
        · exact ⟨Or.inr h1, h2⟩
      · rintro ⟨h1 | h1, h2⟩
        · exact Or.inl h1
        · exact Or.inr ⟨h1, h2⟩

theorem mem_cleanupRooms (now : Int) (l : List (String × RoomRow)) (q : String × RoomRow) :
    q ∈ cleanupRooms now l ↔ q ∈ l ∧ now < q.2.expires_at := by
  induction l with
  | nil => simp [cleanupRooms]
  | cons p rest ih =>
    by_cases he : p.2.expires_at ≤ now
    · simp only [cleanupRooms, if_pos he, ih, List.mem_cons]
      constructor
      · rintro ⟨h1, h2⟩; exact ⟨Or.inr h1, h2⟩
      · rintro ⟨h1 | h1, h2⟩
        · subst h1; omega
        · exact ⟨h1, h2⟩
    · simp only [cleanupRooms, if_neg he, List.mem_cons, ih]
      constructor
      · rintro (h1 | ⟨h1, h2⟩)
        · subst h1; exact ⟨Or.inl rfl, by omega⟩
        · exact ⟨Or.inr h1, h2⟩
      · rintro ⟨h1 | h1, h2⟩
        · exact Or.inl h1
        · exact Or.inr ⟨h1, h2⟩

theorem expires_of_lookupA_cleanupCodes (k : String) (now : Int)
    (l : List (String × CodeRow)) (v : CodeRow)
    (h : lookupA k (cleanupCodes now l) = some v) : now < v.expires_at :=
  ((mem_cleanupCodes now l (k, v)).mp (mem_of_lookupA _ _ _ h)).2

theorem lookupA_cleanupCodes_nodup (k : String) (now : Int) (l : List (String × CodeRow))
    (v : CodeRow) (hn : (l.map Prod.fst).Nodup)
    (h : lookupA k (cleanupCodes now l) = some v) : lookupA k l = some v :=
  lookupA_of_mem_nodup _ _ _ hn ((mem_cleanupCodes now l (k, v)).mp (mem_of_lookupA _ _ _ h)).1

theorem lookupA_deleteCode_self (k : String) (l : List (String × CodeRow)) :
    lookupA k (deleteCode k l) = none := by
  induction l with
  | nil => rfl
  | cons q rest ih =>
    obtain ⟨k', v'⟩ := q
    by_cases hk : k' = k
    · simpa [deleteCode, hk] using ih
    · simpa [deleteCode, hk, lookupA] using ih

theorem resolve_snd_codes (code : String) (now : Int) (st : Store) :
    (resolve code now st).2.session_codes
      = deleteCode code (cleanupCodes now st.session_codes) := by
  simp only [resolve, cleanup]
  cases h : lookupA code (cleanupCodes now st.session_codes) with
  | none => simp [h]
  | some r =>
    by_cases hr : r.expires_at ≤ now <;> simp [h, hr]

theorem resolve_snd_rooms (code : String) (now : Int) (st : Store) :
    (resolve code now st).2.session_rooms = cleanupRooms now st.session_rooms := by
  simp only [resolve, cleanup]
  cases h : lookupA code (cleanupCodes now st.session_codes) with
  | none => simp [h]
  | some r =>
    by_cases hr : r.expires_at ≤ now <;> simp [h, hr]

theorem resolve_of_deleted (code : String) (now : Int) (st : Store)
    (h : lookupA code st.session_codes = none) :
    (resolve code now st).1 = none := by
  simp only [resolve, cleanup]
  rw [lookupA_cleanupCodes_none code now st.session_codes h]

theorem createLoop_ok (rand : Nat → Fin 10) (room : String) (expires_at now : Int) :
    ∀ (fuel k : Nat) (cur : Store) (c : String) (st' : Store),
    createLoop rand k fuel room expires_at now cur = .ok (c, st') →
    st'.session_codes = (c, ⟨room, expires_at, now⟩) :: cur.session_codes ∧
      lookupA c cur.session_codes = none := by
  intro fuel
  induction fuel with
  | zero => intro k cur c st' h; simp [createLoop] at h
  | succ fuel' ih =>
    intro k cur c st' h
    simp only [createLoop] at h
    by_cases hc : (lookupA (generate_code rand k) cur.session_codes).isSome
    · simp only [hc, if_true] at h
      exact ih (k + 1) cur c st' h
    · rw [if_neg hc] at h
      injection h with h'
      injection h' with h1 h2
      subst h1
      subst h2
      exact ⟨rfl, Option.not_isSome_iff_eq_none.mp hc⟩

/- Concrete fixtures used by the witnesses and counterexamples. -/

def rand0 : Nat → Fin 10 := fun _ => 0

def stC1 : Store := ⟨[("000000", ⟨"case-a", 900, 0⟩)], [("case-a", ⟨900, 0⟩)]⟩

def stC2 : Store := ⟨[("111111", ⟨"room-a", 5, 0⟩)], []⟩

/-- C1: for every non-empty room `r`, `create(r)` followed by `resolve` of the
returned code (with no expiry between the calls) yields `r`, and a second
`resolve` with that same code returns not-found. -/
theorem C1_create_then_resolve_once (rand : Nat → Fin 10) (r : String) (_hr : r ≠ "")
    (now now₂ now₃ : Int) (st : Store) (c : String) (st₁ : Store)
    (hc : create rand r now st = .ok (c, st₁))
    (h₂ : now₂ < now + SESSION_CODE_TTL_SEC) :
    (resolve c now₂ st₁).1 = some r ∧
      (resolve c now₃ (resolve c now₂ st₁).2).1 = none := by
  have hloop := createLoop_ok rand r (now + SESSION_CODE_TTL_SEC) now 50 0
    ({ cleanup now st with
        session_rooms := upsertRoom r (now + SESSION_CODE_TTL_SEC) now
          (cleanup now st).session_rooms }) c st₁ (by simpa [create] using hc)
  obtain ⟨hcodes, -⟩ := hloop
  have hne : ¬ ((now + SESSION_CODE_TTL_SEC ) ≤ now₂) := by omega
  constructor
  · simp only [resolve, cleanup, hcodes]
    simp [cleanupCodes, hne, lookupA]
  · apply resolve_of_deleted
    rw [resolve_snd_codes]
    exact lookupA_deleteCode_self c _

/-- C1 witness: a concrete create/resolve/resolve run through the theorem. -/
theorem C1_witness :
    (resolve "000000" 0 stC1).1 = some "case-a" ∧
      (resolve "000000" 0 (resolve "000000" 0 stC1).2).1 = none :=
  C1_create_then_resolve_once rand0 "case-a" (by decide) 0 0 0 emptyStore "000000" stC1
    (by rfl) (by decide)

/-- C2: `resolve(c)` deletes any stored row for `c` unconditionally, and
returns the room exactly when the row existed and its `expires_at` had not yet
passed at lookup time; in particular an expired code resolves to not-found and
its row is removed. -/
theorem C2_resolve_single_use (code : String) (now : Int) (st : Store) (r : String)
    (wf : (st.session_codes.map Prod.fst).Nodup) :
    lookupA code (resolve code now st).2.session_codes = none ∧
      ((resolve code now st).1 = some r ↔
        ∃ row, lookupA code st.session_codes = some row ∧ now < row.expires_at ∧
          row.room = r) := by
  constructor
  · rw [resolve_snd_codes]
    exact lookupA_deleteCode_self _ _
  · simp only [resolve, cleanup]
    cases h : lookupA code (cleanupCodes now st.session_codes) with
    | none =>
      simp only [h]
      constructor
      · intro hx
        exact absurd hx (by simp)
      · rintro ⟨row, hrow, hlive, hr2⟩
        have hsome := lookupA_cleanupCodes_some code now _ row hrow hlive
        rw [h] at hsome
        exact absurd hsome (by simp)
    | some row =>
      have hlive := expires_of_lookupA_cleanupCodes code now _ row h
      have horig := lookupA_cleanupCodes_nodup code now _ row wf h
      have hne : ¬ row.expires_at ≤ now := not_le.mpr hlive
      simp only [h, hne, if_false]
      constructor
      · intro hx
        injection hx with hx'
        exact ⟨row, horig, hlive, hx'⟩
      · rintro ⟨row', hrow', hlive', hr'⟩
        rw [horig] at hrow'
        injection hrow' with he
        rw [← he] at hr'
        rw [hr']

/-- C2 witness: resolving an expired code removes its row and yields
not-found, through the theorem at a concrete store. -/
theorem C2_witness :
    lookupA "111111" (resolve "111111" 10 stC2).2.session_codes = none ∧
      ((resolve "111111" 10 stC2).1 = some "room-a" ↔
        ∃ row, lookupA "111111" stC2.session_codes = some row ∧ (10 : Int) < row.expires_at ∧
          row.room = "room-a") :=
  C2_resolve_single_use "111111" 10 stC2 "room-a" (by decide)

theorem createLoop_error_iff (rand : Nat → Fin 10) (room : String) (expires_at now : Int) :
    ∀ (fuel k : Nat) (cur : Store),
    (∃ e, createLoop rand k fuel room expires_at now cur = .error e) ↔
      ∀ j, k ≤ j → j < k + fuel →
        (lookupA (generate_code rand j) cur.session_codes).isSome = true := by
  intro fuel
  induction fuel with
  | zero =>
    intro k cur
    constructor
    · intro _ j h1 h2
      omega
    · intro _
      exact ⟨_, rfl⟩
  | succ fuel' ih =>
    intro k cur
    simp only [createLoop]
    by_cases hc : (lookupA (generate_code rand k) cur.session_codes).isSome
    · rw [if_pos hc, ih (k + 1) cur]
      constructor
      · intro hall j h1 h2
        rcases Nat.eq_or_lt_of_le h1 with h3 | h3
        · rw [← h3]
          exact hc
        · exact hall j h3 (by omega)
      · intro hall j h1 h2
        exact hall j (by omega) (by omega)
    · rw [if_neg hc]
      constructor
      · rintro ⟨e, he⟩
        exact absurd he (by simp)
      · intro hall
        exact absurd (hall k (Nat.le_refl k) (by omega)) hc

/-- C6: `create` retries code generation on collision up to 50 attempts, fails
exactly when every one of the 50 candidate codes collides with a live code,
and any code it returns is absent from the live code table at the moment of
creation. -/
theorem C6_create_retry_bound (rand : Nat → Fin 10) (room : String) (now : Int) (st : Store) :
    (∀ c st', create rand room now st = .ok (c, st') →
        lookupA c (cleanupCodes now st.session_codes) = none) ∧
      ((∃ e, create rand room now st = .error e) ↔
        ∀ k, k < 50 →
          (lookupA (generate_code rand k) (cleanupCodes now st.session_codes)).isSome = true) := by
  constructor
  · intro c st' h
    exact (createLoop_ok rand room (now + SESSION_CODE_TTL_SEC) now 50 0
      ({ cleanup now st with
          session_rooms := upsertRoom room (now + SESSION_CODE_TTL_SEC) now
            (cleanup now st).session_rooms }) c st' (by simpa [create] using h)).2
  · have hiff := createLoop_error_iff rand room (now + SESSION_CODE_TTL_SEC) now 50 0
      ({ cleanup now st with
          session_rooms := upsertRoom room (now + SESSION_CODE_TTL_SEC) now
            (cleanup now st).session_rooms })
    constructor
    · rintro ⟨e, he⟩
      intro k hk
      exact hiff.mp ⟨e, by simpa [create] using he⟩ k (Nat.zero_le k) (by omega)
    · intro hall
      obtain ⟨e, he⟩ := hiff.mpr (fun j _ h2 => hall j (by omega))
      exact ⟨e, by simpa [create] using he⟩

def stC6 : Store := ⟨[("000000", ⟨"room-a", 900, 0⟩)], []⟩

/-- C6 witness: with a constant random stream every candidate collides and
`create` fails; on an empty store the returned code is absent from the live
table. -/
theorem C6_witness :
    lookupA "000000" (cleanupCodes 0 emptyStore.session_codes) = none ∧
      (∃ e, create rand0 "case-b" 0 stC6 = .error e) :=
  ⟨(C6_create_retry_bound rand0 "case-b" 0 emptyStore).1 "000000"
      ⟨[("000000", ⟨"case-b", 900, 0⟩)], [("case-b", ⟨900, 0⟩)]⟩ (by rfl),
    (C6_create_retry_bound rand0 "case-b" 0 stC6).2.mpr (by decide)⟩

/-- A code submission emitted by the DTMF state machine; `auto` is true for
the length-triggered auto-submit and false for an explicit `#`. -/
structure Submission where
  pid : String
  code : String
  auto : Bool
deriving Repr, DecidableEq

/-- Overwrite a participant's buffer (`buffers[pid] = v`); a missing key reads
as `""` exactly as `buffers.get(pid, "")` does, so buffers are a total map. -/
def setBuf (buffers : String → String) (pid v : String) : String → String :=
  fun q => if q = pid then v else buffers q

def emptyBuffers : String → String := fun _ => ""

/-- The DTMF handler `_handle_dtmf` after event parsing: one digit event for
one participant, returning the new buffers and the submission (if any) that
the handler passes on to `_route_code`. Falsy (empty) digit or identity is
ignored. -/
def handleDtmf (digit pid : String) (buffers : String → String) :
    (String → String) × Option Submission :=
  if digit = "" ∨ pid = "" then (buffers, none)
  else if digit = "*" then (setBuf buffers pid "", none)
  else if digit = "#" then (setBuf buffers pid "", some ⟨pid, buffers pid, false⟩)
  else if pyIsDigit digit then
    let buf := buffers pid ++ digit
    if SESSION_CODE_LEN ≤ buf.length then
      (setBuf buffers pid "", some ⟨pid, pyTake SESSION_CODE_LEN buf, true⟩)
    else (setBuf buffers pid buf, none)
  else (buffers, none)

/-- Process a list of (digit, participant) DTMF events in arrival order,
collecting the emitted submissions. -/
def runDtmf : List (String × String) → (String → String) → (String → String) × List Submission
  | [], buffers => (buffers, [])
  | e :: rest, buffers =>
    let step := handleDtmf e.1 e.2 buffers
    let out := runDtmf rest step.1
    (out.1, step.2.elim out.2 (fun s => s :: out.2))

/-- Abstraction of the LiveKit server responses the router consumes: whether
the optional probe is enabled (`SKIP_EXPLICIT_DISPATCH_IF_AGENT_PRESENT`),
whether `_room_has_agent_participant` finds an active `agent-` participant,
whether `list_dispatch` reports an existing dispatch, whether
`create_dispatch` succeeds, and whether `_move_participant` succeeds. -/
structure LKEnv where
  skipIfAgentPresent : Bool
  agentPresent : String → Bool
  hasExistingDispatch : String → Bool
  createDispatchOk : String → Bool
  moveOk : String → String → String → Bool
  lobbyRoom : String

/-- `_ensure_agent_dispatched_to_room`: reuse an existing dispatch when the
listing shows one, otherwise issue one create-dispatch request; returns
success and the list of create requests issued. -/
def ensureDispatched (env : LKEnv) (room : String) : Bool × List String :=
  if env.hasExistingDispatch room then (true, [])
  else (env.createDispatchOk room, [room])

/-- `_dispatch_if_needed_after_move`: skip when the room is already marked;
with the probe enabled and an agent participant present, return early without
marking; otherwise ensure a dispatch and mark the room only on success.
Returns the new `dispatched_rooms` and the create requests issued. -/
def dispatchIfNeeded (env : LKEnv) (room : String) (dispatched : List String) :
    List String × List String :=
  if room ∈ dispatched then (dispatched, [])
  else if env.skipIfAgentPresent && env.agentPresent room then (dispatched, [])
  else
    let e := ensureDispatched env room
    (if e.1 then room :: dispatched else dispatched, e.2)

/-- The mutable routing state threaded through `_route_code`: the persistent
store plus the in-memory `moved_participants` and `dispatched_rooms` sets. -/
structure RouterState where
  store : Store
  moved : List String
  dispatched : List String
deriving Repr, DecidableEq

/-- Externally observable calls made by one `_route_code` invocation. -/
structure RouteEffects where
  resolveCalls : Nat
  moveAttempts : List (String × String × String)
  guardCalls : Nat
  createDispatches : List String
deriving Repr, DecidableEq

def RouteEffects.zero : RouteEffects := ⟨0, [], 0, []⟩

/-- `_route_code`: strip, length-validate, resolve, move, record the mover and
trigger the dispatch guard. An empty resolved room is falsy in Python and is
treated like a miss. -/
def routeCode (env : LKEnv) (code pid : String) (now : Int) (st : RouterState) :
    RouterState × RouteEffects :=
  let c := pyStrip code
  if c.length ≠ SESSION_CODE_LEN then (st, RouteEffects.zero)
  else
    let r := resolve c now st.store
    match r.1 with
    | none => ({ st with store := r.2 }, ⟨1, [], 0, []⟩)
    | some dest =>
      if dest = "" then ({ st with store := r.2 }, ⟨1, [], 0, []⟩)
      else if env.moveOk env.lobbyRoom pid dest then
        let d := dispatchIfNeeded env dest st.dispatched
        (⟨r.2, pid :: st.moved, d.1⟩, ⟨1, [(env.lobbyRoom, pid, dest)], 1, d.2⟩)
      else ({ st with store := r.2 }, ⟨1, [(env.lobbyRoom, pid, dest)], 0, []⟩)

/-- Two sequential `_route_code` invocations with the same submission
(duplicate delivery), returning both effect records. -/
def routeCodeTwice (env : LKEnv) (code pid : String) (now₁ now₂ : Int) (st : RouterState) :
    RouteEffects × RouteEffects :=
  let first := routeCode env code pid now₁ st
  (first.2, (routeCode env code pid now₂ first.1).2)

/-- State consulted by `_schedule_fallback`: the `fallback_scheduled` and
`moved_participants` sets. -/
structure SchedState where
  fallbackScheduled : List String
  moved : List String
deriving Repr, DecidableEq

/-- `_schedule_fallback`: a falsy identity is ignored; an identity already
scheduled or already moved is skipped; otherwise it is marked and one fallback
timer task is created (the returned flag). -/
def scheduleFallback (pidOpt : Option String) (s : SchedState) : SchedState × Bool :=
  match pidOpt with
  | none => (s, false)
  | some pid =>
    if pid = "" then (s, false)
    else if pid ∈ s.fallbackScheduled ∨ pid ∈ s.moved then (s, false)
    else ({ s with fallbackScheduled := pid :: s.fallbackScheduled }, true)

/-- Lobby-job events that touch the fallback sets: a presence observation
(`participant_connected` callback or one `_poll_existing_participants` hit)
and a successful move recording the participant in `moved_participants`. -/
inductive SchedEvent
  | present (pidOpt : Option String)
  | moveDone (pid : String)
deriving Repr, DecidableEq

/-- Run a sequence of lobby events, returning the final sets and the list of
participants for whom a fallback timer task was created, in order. -/
def runSched : List SchedEvent → SchedState → SchedState × List String
  | [], s => (s, [])
  | SchedEvent.present pidOpt :: rest, s =>
    let step := scheduleFallback pidOpt s
    let out := runSched rest step.1
    (out.1, if step.2 then pidOpt.getD "" :: out.2 else out.2)
  | SchedEvent.moveDone pid :: rest, s =>
    runSched rest { s with moved := pid :: s.moved }

/-- C5: the three specified DTMF sequences with N = 6 produce exactly these
submissions: `5,0,0,9,1,7` auto-submits "500917" with no trailing hash and an
empty buffer afterwards; `1,2,*,3,4,5,6,7,8` submits "345678" (the star
discards the prior digits); `1,2,3,#` submits "123" as-is. -/
theorem C5_dtmf_sequences :
    (runDtmf [("5", "p"), ("0", "p"), ("0", "p"), ("9", "p"), ("1", "p"), ("7", "p")]
        emptyBuffers).2 = [⟨"p", "500917", true⟩] ∧
      (runDtmf [("5", "p"), ("0", "p"), ("0", "p"), ("9", "p"), ("1", "p"), ("7", "p")]
        emptyBuffers).1 "p" = "" ∧
      (runDtmf [("1", "p"), ("2", "p"), ("*", "p"), ("3", "p"), ("4", "p"), ("5", "p"),
          ("6", "p"), ("7", "p"), ("8", "p")] emptyBuffers).2 = [⟨"p", "345678", true⟩] ∧
      (runDtmf [("1", "p"), ("2", "p"), ("3", "p"), ("#", "p")] emptyBuffers).2
        = [⟨"p", "123", false⟩] :=
  ⟨by decide, by decide, by decide, by decide⟩

/- Route-path helper lemmas. -/

theorem routeCode_store_of_len (env : LKEnv) (code pid : String) (now : Int)
    (st : RouterState) (hlen : ¬ (pyStrip code).length ≠ SESSION_CODE_LEN) :
    (routeCode env code pid now st).1.store = (resolve (pyStrip code) now st.store).2 := by
  simp only [routeCode]
  rw [if_neg hlen]
  cases h : (resolve (pyStrip code) now st.store).1 with
  | none => simp [h]
  | some dest =>
    by_cases hd : dest = ""
    · simp [h, hd]
    · by_cases hm : env.moveOk env.lobbyRoom pid dest
      · simp [h, hd, hm]
      · simp [h, hd, hm]

theorem routeCode_effects_bound (env : LKEnv) (code pid : String) (now : Int)
    (st : RouterState) :
    (routeCode env code pid now st).2.moveAttempts.length ≤ 1 ∧
      (routeCode env code pid now st).2.guardCalls ≤ 1 := by
  simp only [routeCode]
  by_cases hlen : (pyStrip code).length ≠ SESSION_CODE_LEN
  · rw [if_pos hlen]
    exact ⟨by simp [RouteEffects.zero], by simp [RouteEffects.zero]⟩
  · rw [if_neg hlen]
    cases h : (resolve (pyStrip code) now st.store).1 with
    | none => simp [h]
    | some dest =>
      by_cases hd : dest = ""
      · simp [h, hd]
      · by_cases hm : env.moveOk env.lobbyRoom pid dest
        · simp [h, hd, hm]
        · simp [h, hd, hm]

theorem routeCode_second_noop (env : LKEnv) (code pid : String) (now : Int)
    (st : RouterState) (hlen : ¬ (pyStrip code).length ≠ SESSION_CODE_LEN)
    (h : lookupA (pyStrip code) st.store.session_codes = none) :
    (routeCode env code pid now st).2 = ⟨1, [], 0, []⟩ := by
  simp only [routeCode]
  rw [if_neg hlen]
  rw [resolve_of_deleted _ _ _ h]

/-- C3 (amended): if the same code submission is processed twice for the same
participant (duplicate delivery), the external move capability and the
dispatch guard are each triggered at most once in total — but because the
first `resolve` consumes the code, not because `moved_participants` gates the
code path (it does not; see the counterexample). -/
theorem C3_same_code_processed_twice (env : LKEnv) (code pid : String)
    (now₁ now₂ : Int) (st : RouterState) :
    (routeCodeTwice env code pid now₁ now₂ st).1.moveAttempts.length +
        (routeCodeTwice env code pid now₁ now₂ st).2.moveAttempts.length ≤ 1 ∧
      (routeCodeTwice env code pid now₁ now₂ st).1.guardCalls +
        (routeCodeTwice env code pid now₁ now₂ st).2.guardCalls ≤ 1 := by
  by_cases hlen : (pyStrip code).length ≠ SESSION_CODE_LEN
  · constructor <;> simp [routeCodeTwice, routeCode, hlen, RouteEffects.zero]
  · have h1 := routeCode_effects_bound env code pid now₁ st
    have hnone : lookupA (pyStrip code)
        ((routeCode env code pid now₁ st).1.store).session_codes = none := by
      rw [routeCode_store_of_len env code pid now₁ st hlen, resolve_snd_codes]
      exact lookupA_deleteCode_self _ _
    have h2 := routeCode_second_noop env code pid now₂
      (routeCode env code pid now₁ st).1 hlen hnone
    constructor <;> simp only [routeCodeTwice, h2] <;> simp <;> omega

def envA : LKEnv :=
  ⟨false, fun _ => false, fun _ => false, fun _ => true, fun _ _ _ => true, SIP_LOBBY_ROOM⟩

def stC3 : RouterState :=
  ⟨⟨[("111111", ⟨"room-a", 100, 0⟩), ("222222", ⟨"room-b", 100, 0⟩)], []⟩, [], []⟩

/-- C3 counterexample: two successive successful code submissions by the same
participant (two distinct valid codes) trigger the external move capability
and the dispatch guard twice each, even though the participant is already in
`moved_participants` after the first — the set does not make the second
processing a no-op. -/
theorem C3_counterexample :
    "p" ∈ (routeCode envA "111111" "p" 0 stC3).1.moved ∧
      (routeCode envA "111111" "p" 0 stC3).2.moveAttempts.length +
          (routeCode envA "222222" "p" 0
            (routeCode envA "111111" "p" 0 stC3).1).2.moveAttempts.length = 2 ∧
      (routeCode envA "111111" "p" 0 stC3).2.guardCalls +
          (routeCode envA "222222" "p" 0
            (routeCode envA "111111" "p" 0 stC3).1).2.guardCalls = 2 ∧
      ¬ ((routeCode envA "111111" "p" 0 stC3).2.moveAttempts.length +
          (routeCode envA "222222" "p" 0
            (routeCode envA "111111" "p" 0 stC3).1).2.moveAttempts.length ≤ 1) :=
  ⟨by decide, by decide, by decide, by decide⟩

/-- C7 (amended): a submitted code whose stripped form's length differs from N
is rejected with no side effect at all: no resolve, no move, no dispatch, and
the state is returned unchanged. (Codes submitted by the DTMF collector are
all-digit strings, for which stripping is the identity, so this covers every
collector submission of wrong length.) -/
theorem C7_wrong_length_no_side_effect (env : LKEnv) (code pid : String) (now : Int)
    (st : RouterState) (h : (pyStrip code).length ≠ SESSION_CODE_LEN) :
    routeCode env code pid now st = (st, RouteEffects.zero) := by
  simp only [routeCode]
  rw [if_pos h]

/-- C7 witness: a five-digit submission is rejected with no effect, through
the theorem at a concrete input. -/
theorem C7_witness :
    routeCode envA "12345" "p" 0 stC3 = (stC3, RouteEffects.zero) :=
  C7_wrong_length_no_side_effect envA "12345" "p" 0 stC3 (by decide)

def stC7 : RouterState := ⟨⟨[("123456", ⟨"room-a", 100, 0⟩)], []⟩, [], []⟩

/-- C7 counterexample: the submission "123456 " (length 7, trailing space)
differs from N in length, yet `_route_code` strips it before validating, so
resolve is called, the stored code is consumed, a move is attempted and
`moved_participants` changes — the wrong-length submission is not side-effect
free. -/
theorem C7_counterexample :
    "123456 ".length ≠ SESSION_CODE_LEN ∧
      (routeCode envA "123456 " "p" 0 stC7).2.resolveCalls = 1 ∧
      (routeCode envA "123456 " "p" 0 stC7).2.moveAttempts
        = [(SIP_LOBBY_ROOM, "p", "room-a")] ∧
      (routeCode envA "123456 " "p" 0 stC7).1.moved = ["p"] ∧
      lookupA "123456" (routeCode envA "123456 " "p" 0 stC7).1.store.session_codes = none :=
  ⟨by decide, by decide, by decide, by decide, by decide⟩

def envB : LKEnv :=
  ⟨true, fun _ => true, fun _ => false, fun _ => true, fun _ _ _ => true, SIP_LOBBY_ROOM⟩

/-- C4 counterexample: with the probe enabled and a worker participant already
present, `_dispatch_if_needed_after_move` issues no create-dispatch request
but also does not add the room to `dispatched_rooms`, refuting the claim that
it marks the room dispatched so a later call can skip via the set. -/
theorem C4_counterexample :
    (dispatchIfNeeded envB "case-a" []).2 = [] ∧
      "case-a" ∉ (dispatchIfNeeded envB "case-a" []).1 ∧
      (dispatchIfNeeded envB "case-a" []).1 = [] :=
  ⟨by decide, by decide, by decide⟩

/-- C4 (amended): when the probe is enabled and finds a worker participant,
the guard issues no create-dispatch request and leaves `dispatched_rooms`
unchanged; the room is not marked, so a later call re-runs the probe rather
than skipping via the set, and again issues no request while the worker
remains present. -/
theorem C4_probe_skips_without_marking (env : LKEnv) (room : String)
    (dispatched : List String) (hskip : env.skipIfAgentPresent = true)
    (hagent : env.agentPresent room = true) :
    dispatchIfNeeded env room dispatched = (dispatched, []) ∧
      dispatchIfNeeded env room (dispatchIfNeeded env room dispatched).1
        = (dispatched, []) := by
  have h1 : dispatchIfNeeded env room dispatched = (dispatched, []) := by
    simp only [dispatchIfNeeded]
    by_cases hmem : room ∈ dispatched
    · rw [if_pos hmem]
    · rw [if_neg hmem]
      simp [hskip, hagent]
  refine ⟨h1, ?_⟩
  rw [h1]
  exact h1

/-- C4 witness: the amended guarantee at a concrete environment with an agent
participant present. -/
theorem C4_witness :
    dispatchIfNeeded envB "case-a" [] = ([], []) ∧
      dispatchIfNeeded envB "case-a" (dispatchIfNeeded envB "case-a" []).1 = ([], []) :=
  C4_probe_skips_without_marking envB "case-a" [] (by decide) (by decide)

theorem bestRoom_spec (now : Int) (l : List (String × RoomRow)) :
    (∀ q, bestRoom now l = some q → q ∈ l ∧ now < q.2.expires_at ∧
        ∀ q', q' ∈ l → now < q'.2.expires_at → q'.2.created_at ≤ q.2.created_at) ∧
      (bestRoom now l = none ↔ ∀ q', q' ∈ l → q'.2.expires_at ≤ now) := by
  induction l with
  | nil =>
    constructor
    · intro q h
      simp [bestRoom] at h
    · simp [bestRoom]
  | cons p rest ih =>
    obtain ⟨ih1, ih2⟩ := ih
    constructor
    · intro q h
      simp only [bestRoom] at h
      cases hb : bestRoom now rest with
      | none =>
        simp only [hb] at h
        by_cases hp : now < p.2.expires_at
        · rw [if_pos hp] at h
          injection h with h'
          subst h'
          refine ⟨List.mem_cons_self _ _, hp, ?_⟩
          intro q' hq' hlive'
          rcases List.mem_cons.mp hq' with h1 | h1
          · rw [h1]
          · exact absurd hlive' (not_lt.mpr (ih2.mp hb q' h1))
        · rw [if_neg hp] at h
          exact absurd h (by simp)
      | some q0 =>
        simp only [hb] at h
        obtain ⟨hq0mem, hq0live, hq0max⟩ := ih1 q0 hb
        by_cases hp : now < p.2.expires_at
        · rw [if_pos hp] at h
          by_cases hgt : q0.2.created_at > p.2.created_at
          · rw [if_pos hgt] at h
            injection h with h'
            subst h'
            refine ⟨List.mem_cons_of_mem _ hq0mem, hq0live, ?_⟩
            intro q' hq' hlive'
            rcases List.mem_cons.mp hq' with h1 | h1
            · rw [h1]; omega
            · exact hq0max q' h1 hlive'
          · rw [if_neg hgt] at h
            injection h with h'
            subst h'
            refine ⟨List.mem_cons_self _ _, hp, ?_⟩
            intro q' hq' hlive'
            rcases List.mem_cons.mp hq' with h1 | h1
            · rw [h1]
            · have := hq0max q' h1 hlive'
              omega
        · rw [if_neg hp] at h
          injection h with h'
          subst h'
          refine ⟨List.mem_cons_of_mem _ hq0mem, hq0live, ?_⟩
          intro q' hq' hlive'
          rcases List.mem_cons.mp hq' with h1 | h1
          · rw [h1] at hlive'
            exact absurd hlive' hp
          · exact hq0max q' h1 hlive'
    · simp only [bestRoom]
      cases hb : bestRoom now rest with
      | none =>
        simp only [hb]
        by_cases hp : now < p.2.expires_at
        · rw [if_pos hp]
          constructor
          · intro h
            exact absurd h (by simp)
          · intro hall
            exact absurd hp (not_lt.mpr (hall p (List.mem_cons_self _ _)))
        · rw [if_neg hp]
          constructor
          · intro _ q' hq'
            rcases List.mem_cons.mp hq' with h1 | h1
            · rw [h1]; omega
            · exact ih2.mp hb q' h1
          · intro _
            rfl
      | some q0 =>
        simp only [hb]
        obtain ⟨hq0mem, hq0live, -⟩ := ih1 q0 hb
        constructor
        · intro h
          by_cases hp : now < p.2.expires_at
          · rw [if_pos hp] at h
            by_cases hgt : q0.2.created_at > p.2.created_at
            · rw [if_pos hgt] at h
              exact absurd h (by simp)
            · rw [if_neg hgt] at h
              exact absurd h (by simp)
          · rw [if_neg hp] at h
            exact absurd h (by simp)
        · intro hall
          exact absurd hq0live (not_lt.mpr (hall q0 (List.mem_cons_of_mem _ hq0mem)))

/-- C8 (amended): `latest_room` returns a most recently created live
SessionRoom (creation time maximal among live rooms) or none exactly when no
live room exists, and it never consumes or alters a live SessionCode row —
although the expiry sweep shared by all registry accesses does delete rows
that are already expired (see the counterexample). -/
theorem C8_latest_room_spec (now : Int) (st : Store) :
    (∀ r, (latest_room now st).1 = some r →
        ∃ row, (r, row) ∈ st.session_rooms ∧ now < row.expires_at ∧
          ∀ q', q' ∈ st.session_rooms → now < q'.2.expires_at →
            q'.2.created_at ≤ row.created_at) ∧
      ((latest_room now st).1 = none ↔
        ∀ q', q' ∈ st.session_rooms → q'.2.expires_at ≤ now) ∧
      (∀ c row, lookupA c st.session_codes = some row → now < row.expires_at →
        lookupA c (latest_room now st).2.session_codes = some row) := by
  obtain ⟨hspec, hnone⟩ := bestRoom_spec now (cleanupRooms now st.session_rooms)
  refine ⟨?_, ?_, ?_⟩
  · intro r h
    simp only [latest_room, cleanup, Option.map_eq_some'] at h
    obtain ⟨q, hq, hq1⟩ := h
    obtain ⟨k, row⟩ := q
    obtain ⟨hmem, hlive, hmax⟩ := hspec (k, row) hq
    obtain rfl : k = r := hq1
    refine ⟨row, ((mem_cleanupRooms now _ _).mp hmem).1, hlive, ?_⟩
    intro q' hq' hlive'
    exact hmax q' ((mem_cleanupRooms now _ _).mpr ⟨hq', hlive'⟩) hlive'
  · simp only [latest_room, cleanup, Option.map_eq_none']
    rw [hnone]
    constructor
    · intro hall q' hq'
      by_cases hlive' : now < q'.2.expires_at
      · exact absurd hlive'
          (not_lt.mpr (hall q' ((mem_cleanupRooms now _ _).mpr ⟨hq', hlive'⟩)))
      · omega
    · intro hall q' hq'
      exact hall q' ((mem_cleanupRooms now _ _).mp hq').1
  · intro c row h hlive
    simp only [latest_room, cleanup]
    exact lookupA_cleanupCodes_some c now _ row h hlive

def stC8 : Store := ⟨[("111111", ⟨"room-a", 5, 0⟩)], [("room-b", ⟨100, 1⟩)]⟩

/-- C8 counterexample: `latest_room` does mutate the SessionCode table — its
expiry sweep deletes the expired row for code "111111", so the claim that it
does not mutate or consume any SessionCode row fails on this store. -/
theorem C8_counterexample :
    lookupA "111111" stC8.session_codes = some ⟨"room-a", 5, 0⟩ ∧
      lookupA "111111" (latest_room 10 stC8).2.session_codes = none ∧
      (latest_room 10 stC8).2.session_codes ≠ stC8.session_codes ∧
      (latest_room 10 stC8).1 = some "room-b" :=
  ⟨by decide, by decide, by decide, by decide⟩

def stC8w : Store :=
  ⟨[("222222", ⟨"room-b", 100, 0⟩)], [("room-a", ⟨100, 2⟩), ("room-b", ⟨100, 5⟩)]⟩

/-- C8 witness: the amended guarantee at a concrete store with two live rooms
and one live code. -/
theorem C8_witness :
    (∃ row, ("room-b", row) ∈ stC8w.session_rooms ∧ (10 : Int) < row.expires_at ∧
        ∀ q', q' ∈ stC8w.session_rooms → (10 : Int) < q'.2.expires_at →
          q'.2.created_at ≤ row.created_at) ∧
      lookupA "222222" (latest_room 10 stC8w).2.session_codes
        = some ⟨"room-b", 100, 0⟩ :=
  ⟨(C8_latest_room_spec 10 stC8w).1 "room-b" (by decide),
    (C8_latest_room_spec 10 stC8w).2.2 "222222" ⟨"room-b", 100, 0⟩ (by decide) (by decide)⟩

/-- Number of fallback timers created for participant `p` in a timer log. -/
def countTimers (p : String) : List String → Nat
  | [] => 0
  | q :: rest => (if q = p then 1 else 0) + countTimers p rest

theorem runSched_count_bound (p : String) :
    ∀ (evs : List SchedEvent) (s : SchedState),
    countTimers p (runSched evs s).2 ≤ if p ∈ s.fallbackScheduled then 0 else 1 := by
  intro evs
  induction evs with
  | nil =>
    intro s
    simp [runSched, countTimers]
  | cons e rest ih =>
    intro s
    cases e with
    | moveDone pid =>
      simp only [runSched]
      exact ih { s with moved := pid :: s.moved }
    | present pidOpt =>
      cases pidOpt with
      | none =>
        simp only [runSched, scheduleFallback]
        simpa using ih s
      | some pid =>
        by_cases h0 : pid = ""
        · simp only [runSched, scheduleFallback, if_pos h0]
          simpa using ih s
        · by_cases h1 : pid ∈ s.fallbackScheduled ∨ pid ∈ s.moved
          · simp only [runSched, scheduleFallback, if_neg h0, if_pos h1]
            simpa using ih s
          · simp only [runSched, scheduleFallback, if_neg h0, if_neg h1, if_true,
              Option.getD_some]
            have hih := ih { s with fallbackScheduled := pid :: s.fallbackScheduled }
            by_cases hp : pid = p
            · subst hp
              have hmem : pid ∉ s.fallbackScheduled := fun hc => h1 (Or.inl hc)
              rw [if_neg hmem]
              have hmem2 : pid ∈ (pid :: s.fallbackScheduled) := List.mem_cons_self _ _
              rw [if_pos hmem2] at hih
              simp only [countTimers, if_true]
              omega
            · simp only [countTimers, if_neg hp]
              have hiff : (p ∈ pid :: s.fallbackScheduled) ↔ p ∈ s.fallbackScheduled := by
                constructor
                · intro hc
                  rcases List.mem_cons.mp hc with h2 | h2
                  · exact absurd h2.symm hp
                  · exact h2
                · exact fun hc => List.mem_cons_of_mem _ hc
              by_cases hps : p ∈ s.fallbackScheduled
              · rw [if_pos hps]
                rw [if_pos (hiff.mpr hps)] at hih
                omega
              · rw [if_neg hps]
                rw [if_neg (fun hc => hps (hiff.mp hc))] at hih
                omega

/-- C9: from the fresh lobby job state, any sequence of presence events, poll
observations and successful moves creates at most one fallback timer for any
given participant, and a participant already recorded in `moved_participants`
is never scheduled. -/
theorem C9_fallback_timer_once (evs : List SchedEvent) (p : String) (s : SchedState)
    (hmoved : p ∈ s.moved) :
    countTimers p (runSched evs ⟨[], []⟩).2 ≤ 1 ∧
      scheduleFallback (some p) s = (s, false) := by
  constructor
  · have h := runSched_count_bound p evs ⟨[], []⟩
    simpa using h
  · simp only [scheduleFallback]
    by_cases h0 : p = ""
    · rw [if_pos h0]
    · rw [if_neg h0, if_pos (Or.inr hmoved)]

/-- C9 witness: duplicate presence events for one participant create one timer,
and a moved participant is never scheduled, at concrete inputs. -/
theorem C9_witness :
    countTimers "q"
        (runSched [SchedEvent.present (some "q"), SchedEvent.present (some "q")]
          ⟨[], []⟩).2 ≤ 1 ∧
      scheduleFallback (some "q") ⟨[], ["q"]⟩ = (⟨[], ["q"]⟩, false) :=
  C9_fallback_timer_once [SchedEvent.present (some "q"), SchedEvent.present (some "q")]
    "q" ⟨[], ["q"]⟩ (by decide)

/- String facts used by the DTMF invariant. -/

theorem str_data_append (s t : String) : (s ++ t).data = s.data ++ t.data := by
  cases s
  cases t
  rfl

theorem str_length_data (s : String) : s.length = s.data.length := rfl

theorem not_space_of_digit (c : Char) (h : isDigitChar c = true) : isSpaceChar c = false := by
  simp only [isDigitChar, Bool.and_eq_true, decide_eq_true_eq] at h
  simp only [isSpaceChar, Bool.or_eq_false_iff, decide_eq_false_iff_not]
  omega

theorem dropWhile_space_of_digits (l : List Char) (h : ∀ c ∈ l, isDigitChar c = true) :
    l.dropWhile isSpaceChar = l := by
  cases l with
  | nil => rfl
  | cons c cs =>
    have hc := not_space_of_digit c (h c (List.mem_cons_self _ _))
    simp [List.dropWhile, hc]

theorem pyStrip_of_digits (s : String) (h : ∀ c ∈ s.data, isDigitChar c = true) :
    pyStrip s = s := by
  unfold pyStrip
  rw [dropWhile_space_of_digits s.data h]
  rw [dropWhile_space_of_digits s.data.reverse (by
    intro c hc
    exact h c (List.mem_reverse.mp hc))]
  rw [List.reverse_reverse]

/-- Invariant maintained by the DTMF handler: every buffer is strictly shorter
than N and contains only digit characters. -/
def bufOk (b : String → String) : Prop :=
  ∀ pid, (b pid).length < SESSION_CODE_LEN ∧ ∀ c ∈ (b pid).data, isDigitChar c = true

theorem bufOk_empty : bufOk emptyBuffers := by
  intro pid
  refine ⟨?_, ?_⟩
  · show ("" : String).length < SESSION_CODE_LEN
    decide
  · intro c hc
    simp [emptyBuffers] at hc

theorem bufOk_setBuf (b : String → String) (hb : bufOk b) (pid v : String)
    (hlen : v.length < SESSION_CODE_LEN) (hdig : ∀ c ∈ v.data, isDigitChar c = true) :
    bufOk (setBuf b pid v) := by
  intro q
  by_cases hq : q = pid
  · simp only [setBuf, if_pos hq]
    exact ⟨hlen, hdig⟩
  · simp only [setBuf, if_neg hq]
    exact hb q

theorem emptyString_ok : ("" : String).length < SESSION_CODE_LEN ∧
    ∀ c ∈ ("" : String).data, isDigitChar c = true := by
  constructor
  · decide
  · intro c hc
    simp at hc

theorem handleDtmf_preserves (digit pid : String) (b : String → String) (hb : bufOk b) :
    bufOk (handleDtmf digit pid b).1 ∧
      ∀ s, (handleDtmf digit pid b).2 = some s → s.auto = true →
        s.code.length = SESSION_CODE_LEN ∧ ∀ c ∈ s.code.data, isDigitChar c = true := by
  simp only [handleDtmf]
  by_cases h0 : digit = "" ∨ pid = ""
  · rw [if_pos h0]
    exact ⟨hb, by intro s hs _; exact absurd hs (by simp)⟩
  · rw [if_neg h0]
    by_cases hstar : digit = "*"
    · rw [if_pos hstar]
      refine ⟨bufOk_setBuf b hb pid "" emptyString_ok.1 emptyString_ok.2, ?_⟩
      intro s hs _
      exact absurd hs (by simp)
    · rw [if_neg hstar]
      by_cases hhash : digit = "#"
      · rw [if_pos hhash]
        refine ⟨bufOk_setBuf b hb pid "" emptyString_ok.1 emptyString_ok.2, ?_⟩
        intro s hs hauto
        injection hs with hs'
        rw [← hs'] at hauto
        exact absurd hauto (by simp)
      · rw [if_neg hhash]
        by_cases hdig : pyIsDigit digit
        · rw [if_pos hdig]
          have hdigall : ∀ c ∈ digit.data, isDigitChar c = true := by
            have := (Bool.and_eq_true _ _).mp hdig
            intro c hc
            exact List.all_eq_true.mp this.2 c hc
          have hbufall : ∀ c ∈ (b pid ++ digit).data, isDigitChar c = true := by
            intro c hc
            rw [str_data_append] at hc
            rcases List.mem_append.mp hc with h1 | h1
            · exact (hb pid).2 c h1
            · exact hdigall c h1
          by_cases hfull : SESSION_CODE_LEN ≤ (b pid ++ digit).length
          · rw [if_pos hfull]
            refine ⟨bufOk_setBuf b hb pid "" emptyString_ok.1 emptyString_ok.2, ?_⟩
            intro s hs _
            injection hs with hs'
            rw [← hs']
            constructor
            · show (pyTake SESSION_CODE_LEN (b pid ++ digit)).length = SESSION_CODE_LEN
              rw [str_length_data, pyTake, List.length_take]
              rw [str_length_data] at hfull
              omega
            · intro c hc
              simp only [pyTake] at hc
              exact hbufall c (List.mem_of_mem_take hc)
          · rw [if_neg hfull]
            refine ⟨bufOk_setBuf b hb pid (b pid ++ digit) (by omega) hbufall, ?_⟩
            intro s hs _
            exact absurd hs (by simp)
        · rw [if_neg hdig]
          exact ⟨hb, by intro s hs _; exact absurd hs (by simp)⟩

theorem runDtmf_invariant (evs : List (String × String)) :
    ∀ (b : String → String), bufOk b →
    bufOk (runDtmf evs b).1 ∧
      ∀ s ∈ (runDtmf evs b).2, s.auto = true →
        s.code.length = SESSION_CODE_LEN ∧ ∀ c ∈ s.code.data, isDigitChar c = true := by
  induction evs with
  | nil =>
    intro b hb
    exact ⟨hb, by intro s hs; simp [runDtmf] at hs⟩
  | cons e rest ih =>
    intro b hb
    obtain ⟨h1, h2⟩ := handleDtmf_preserves e.1 e.2 b hb
    obtain ⟨h3, h4⟩ := ih (handleDtmf e.1 e.2 b).1 h1
    refine ⟨h3, ?_⟩
    intro s hs hauto
    simp only [runDtmf] at hs
    cases hstep : (handleDtmf e.1 e.2 b).2 with
    | none =>
      rw [hstep] at hs
      simp only [Option.elim] at hs
      exact h4 s hs hauto
    | some s0 =>
      rw [hstep] at hs
      simp only [Option.elim] at hs
      rcases List.mem_cons.mp hs with h5 | h5
      · rw [h5]
        exact h2 s0 hstep (h5 ▸ hauto)
      · exact h4 s h5 hauto

/-- C10: after any sequence of DTMF events from the fresh lobby state, every
participant's buffer is strictly shorter than N, and every code emitted by
the auto-submit path has exactly N (digit) characters, so it passes the
downstream stripped-length check of `_route_code`. -/
theorem C10_auto_submit_exact_length (evs : List (String × String)) :
    (∀ pid, ((runDtmf evs emptyBuffers).1 pid).length < SESSION_CODE_LEN) ∧
      ∀ s ∈ (runDtmf evs emptyBuffers).2, s.auto = true →
        s.code.length = SESSION_CODE_LEN ∧ (pyStrip s.code).length = SESSION_CODE_LEN := by
  obtain ⟨h1, h2⟩ := runDtmf_invariant evs emptyBuffers bufOk_empty
  constructor
  · intro pid
    exact (h1 pid).1
  · intro s hs hauto
    obtain ⟨hl, hd⟩ := h2 s hs hauto
    exact ⟨hl, by rw [pyStrip_of_digits s.code hd]; exact hl⟩

/-- C10 witness: the invariant and the auto-submit length guarantee evaluated
on a concrete event sequence, through the theorem. -/
theorem C10_witness :
    ((runDtmf [("7", "w"), ("7", "w"), ("8", "w"), ("8", "w"), ("9", "w"), ("9", "w"),
        ("1", "w")] emptyBuffers).1 "w").length < SESSION_CODE_LEN ∧
      ("778899".length = SESSION_CODE_LEN ∧
        (pyStrip "778899").length = SESSION_CODE_LEN) :=
  ⟨(C10_auto_submit_exact_length [("7", "w"), ("7", "w"), ("8", "w"), ("8", "w"),
      ("9", "w"), ("9", "w"), ("1", "w")]).1 "w",
    (C10_auto_submit_exact_length [("7", "w"), ("7", "w"), ("8", "w"), ("8", "w"),
      ("9", "w"), ("9", "w"), ("1", "w")]).2 ⟨"w", "778899", true⟩ (by decide) (by decide)⟩
